import Mathlib

/-!
Verification of the calibrated-backprojection network architecture
(kbnet/networks.py): the geometry utilities, the KBNet encoder pyramid,
the multi-scale decoder, the pose decoder and sparse-to-dense pooling.

Numeric tensors are modelled over the rationals.  External collaborator
blocks (net_utils) that are not part of the sources are modelled from the
specification and marked as such in their doc comments.  The KBNet encoder
and the multi-scale decoder are embedded as symbolic trace semantics that
mirror the control flow of the source line by line, with Python runtime
errors (NameError, AttributeError, IndexError, TypeError) made explicit
through an error monad.
-/

/-! ## Geometry utilities (KBNetEncoder.forward inner functions) -/

/-- A 3x3 rational matrix with explicit entries (row r, column c as mrc):
the per-batch-element intrinsics tensor. -/
structure M3 where
  m00 : ℚ
  m01 : ℚ
  m02 : ℚ
  m10 : ℚ
  m11 : ℚ
  m12 : ℚ
  m20 : ℚ
  m21 : ℚ
  m22 : ℚ
deriving DecidableEq

/-- A 3-vector of rationals. -/
structure V3 where
  x : ℚ
  y : ℚ
  z : ℚ
deriving DecidableEq

/-- The identity 3x3 matrix. -/
def idM3 : M3 := ⟨1, 0, 0, 0, 1, 0, 0, 0, 1⟩

/-- Matrix-vector product. -/
def mulVec3 (A : M3) (v : V3) : V3 :=
  ⟨A.m00 * v.x + A.m01 * v.y + A.m02 * v.z,
   A.m10 * v.x + A.m11 * v.y + A.m12 * v.z,
   A.m20 * v.x + A.m21 * v.y + A.m22 * v.z⟩

/-- Determinant of a 3x3 matrix by cofactor expansion. -/
def det3 (A : M3) : ℚ :=
  A.m00 * (A.m11 * A.m22 - A.m12 * A.m21)
    - A.m01 * (A.m10 * A.m22 - A.m12 * A.m20)
    + A.m02 * (A.m10 * A.m21 - A.m11 * A.m20)

/-- Executable inverse of a 3x3 matrix (torch.inverse on a batch element)
via the adjugate; meaningful when the determinant is nonzero. -/
def inv3 (A : M3) : M3 :=
  let d := (det3 A)⁻¹
  ⟨d * (A.m11 * A.m22 - A.m12 * A.m21),
   d * (A.m02 * A.m21 - A.m01 * A.m22),
   d * (A.m01 * A.m12 - A.m02 * A.m11),
   d * (A.m12 * A.m20 - A.m10 * A.m22),
   d * (A.m00 * A.m22 - A.m02 * A.m20),
   d * (A.m02 * A.m10 - A.m00 * A.m12),
   d * (A.m10 * A.m21 - A.m11 * A.m20),
   d * (A.m01 * A.m20 - A.m00 * A.m21),
   d * (A.m00 * A.m11 - A.m01 * A.m10)⟩

/-- Modelled from the spec: net_utils.meshgrid is not under src; per spec
section 4.1 it builds a homogeneous pixel grid (x, y, 1), here the entry at
pixel (row i, column j).  The height and width arguments give the grid
extent and do not affect an individual entry. -/
def meshgrid (height width i j : ℕ) : V3 :=
  ⟨(j : ℚ), (i : ℚ), 1⟩

/-- KBNetEncoder.forward.camera_coordinates at one batch element and one
pixel: the homogeneous pixel coordinate is multiplied by the inverse
intrinsics (torch.matmul of torch.inverse k).  The final reshape uses the
enclosing scope's batch variable, which every call site passes as the
batch argument, so it does not affect the per-pixel value. -/
def camera_coordinates (height width : ℕ) (k : M3) (i j : ℕ) : V3 :=
  mulVec3 (inv3 k) (meshgrid height width i j)

/-- The variables of the enclosing KBNetEncoder.forward scope that the inner
function scale_intrinsics reads: the batch size, the level-0 input height and
width, and the level-1 feature map height and width. -/
structure ScaleClosure where
  n_batch : ℕ
  n_height0 : ℚ
  n_width0 : ℚ
  n_height1 : ℚ
  n_width1 : ℚ

/-- Element-wise product of a matrix with the 3x3 scale template
[[sx,1,sx],[1,sy,sy],[1,1,1]]. -/
def applyScaleTemplate (sx sy : ℚ) (k : M3) : M3 :=
  ⟨k.m00 * sx, k.m01 * 1, k.m02 * sx,
   k.m10 * 1, k.m11 * sy, k.m12 * sy,
   k.m20 * 1, k.m21 * 1, k.m22 * 1⟩

/-- KBNetEncoder.forward.scale_intrinsics: the height0..width1 arguments are
converted to tensors and then never read again; the scale factors are
computed from the enclosing scope's n_width1 / n_width0 and
n_height1 / n_height0, and the template is broadcast over the batch and
multiplied element-wise into k. -/
def scale_intrinsics (ctx : ScaleClosure) (height0 width0 height1 width1 : ℚ)
    (k : M3) : M3 :=
  let scale_x := ctx.n_width1 / ctx.n_width0
  let scale_y := ctx.n_height1 / ctx.n_height0
  applyScaleTemplate scale_x scale_y k

/-- The scaling rule as the specification states it: scale factors computed
from the function's own arguments (scale_x = width1/width0,
scale_y = height1/height0), compared against scale_intrinsics. -/
def scale_intrinsics_spec (height0 width0 height1 width1 : ℚ) (k : M3) : M3 :=
  applyScaleTemplate (width1 / width0) (height1 / height0) k

/-! ## KBNet encoder: symbolic trace semantics of KBNetEncoder.forward

The encoder's forward pass is embedded as a trace over symbolic tensors:
each tensor records which operation produced it from which inputs.  Spatial
dimensions are threaded alongside, each level halving the resolution per
the stride-2 contract of the external convolution blocks (spec sections
4.3 and 6).  Python runtime errors become Except.error values. -/

/-- A symbolic tensor of the encoder trace: the inputs, applications of the
named plain convolution blocks, camera coordinates of a pyramid level, the
three output streams of a calibrated backprojection block (identified by
its constructor index), channel concatenation, and the absent fused
argument (Python None) fed to the first calibrated block. -/
inductive Feat where
  | image : Feat
  | depth : Feat
  | fusedNone : Feat
  | conv : String → Feat → Feat
  | coords : ℕ → Feat
  | kbImage : ℕ → Feat → Feat → Feat → Feat → Feat
  | kbDepth : ℕ → Feat → Feat → Feat → Feat → Feat
  | kbFused : ℕ → Feat → Feat → Feat → Feat → Feat
  | cat : Feat → Feat → Feat
deriving DecidableEq

/-- Spatial dimensions (height, width) of a feature map. -/
abbrev Dims := ℕ × ℕ

/-- Output spatial size of a stride-2 convolution with kernel 3 and padding
1: the ceiling of half the input size. -/
def ceilHalf (n : ℕ) : ℕ := (n + 1) / 2

/-- The image-path input selection of a plain level: the previous fused
stream when present, else the previous image stream. -/
def fusedOrImage (pF : Option Feat) (pI : Feat) : Feat :=
  match pF with
  | some f => f
  | none => pI

/-- What one level of KBNetEncoder.forward did: whether it took the
calibrated branch, the tensor fed to its image path, the fused tensor
passed to the calibrated block (None at level 0), which calibrated
backprojection block was invoked, and the three output streams. -/
structure LevelRecord where
  level : ℕ
  calibrated : Bool
  imageInput : Feat
  fusedInput : Option Feat
  blockIndex : Option ℕ
  imageOut : Feat
  depthOut : Feat
  fusedOut : Option Feat
deriving DecidableEq

/-- Result of KBNetEncoder.forward: the bottleneck (layers[-1]) and the
skip pyramid (layers[0:-1]), each with spatial dimensions, plus the
per-level records of the trace. -/
structure EncoderOutput where
  bottleneck : Feat × Dims
  skips : List (Feat × Dims)
  records : List LevelRecord
deriving DecidableEq

/-- The calibrated backprojection blocks created by KBNetEncoder.__init__:
for each level n in 0..4 present in resolutions_backprojection, the
constructor creates the attribute calibrated_backprojection(n+1). -/
def constructedKBBlockIndices (res : List ℕ) : List ℕ :=
  (List.range 5).filterMap fun n => if n ∈ res then some (n + 1) else none

/-- One level n in 1..4 of KBNetEncoder.forward, acting on the previous
level's image, depth and fused streams.  In the calibrated branch the call
scale_intrinsics(batch=n_batch, ...) reads n_batch, n_height0 and n_width0
from the enclosing scope, which are bound only when level 0 took the
calibrated branch (ctx0); the block invoked is
calibrated_backprojection(n+1) except at level 4, where the source invokes
calibrated_backprojection4, an attribute that exists only when
3 is in resolutions_backprojection.  In the plain branch the image path
consumes the previous fused stream when it is not None, else the previous
image stream.  Returns the new streams, the skip entry and the record. -/
def levelStep (res : List ℕ) (ctx0 : Prop) [Decidable ctx0] (n : ℕ)
    (prevImage prevDepth : Feat) (prevFused : Option Feat) :
    Except String (Feat × Feat × Option Feat × Feat × LevelRecord) :=
  if n ∈ res then
    if ctx0 then
      if n = 4 ∧ 3 ∉ res then
        Except.error ("AttributeError: no attribute calibrated_backprojection4")
      else
        let blk := if n = 4 then 4 else n + 1
        let c := Feat.coords n
        let fusedArg := match prevFused with
          | some f => f
          | none => Feat.fusedNone
        let i := Feat.kbImage blk prevImage prevDepth c fusedArg
        let d := Feat.kbDepth blk prevImage prevDepth c fusedArg
        let f := Feat.kbFused blk prevImage prevDepth c fusedArg
        Except.ok (i, d, some f, Feat.cat f d,
          ⟨n, true, prevImage, prevFused, some blk, i, d, some f⟩)
    else
      Except.error ("NameError: name n_batch is not defined")
  else
    let imgIn := match prevFused with
      | some f => f
      | none => prevImage
    let i := Feat.conv ("conv" ++ toString (n + 1) ++ "_image") imgIn
    let d := Feat.conv ("conv" ++ toString (n + 1) ++ "_depth") prevDepth
    Except.ok (i, d, none, Feat.cat i d,
      ⟨n, false, imgIn, none, none, i, d, none⟩)

/-- Level 0 of KBNetEncoder.forward: either the two stride-1 feature
extractors followed by calibrated_backprojection1 (binding n_batch,
n_height0, n_width0 in the enclosing scope) or the two plain stride-2
blocks.  Returns the level-1 streams, the skip entry and the record. -/
def level0Step (res : List ℕ) : Feat × Feat × Option Feat × Feat × LevelRecord :=
  if 0 ∈ res then
    let conv0i := Feat.conv ("conv0_image") Feat.image
    let conv0d := Feat.conv ("conv0_depth") Feat.depth
    let c := Feat.coords 0
    let i := Feat.kbImage 1 conv0i conv0d c Feat.fusedNone
    let d := Feat.kbDepth 1 conv0i conv0d c Feat.fusedNone
    let f := Feat.kbFused 1 conv0i conv0d c Feat.fusedNone
    (i, d, some f, Feat.cat f d, ⟨0, true, conv0i, none, some 1, i, d, some f⟩)
  else
    let i := Feat.conv ("conv1_image") Feat.image
    let d := Feat.conv ("conv1_depth") Feat.depth
    (i, d, none, Feat.cat i d, ⟨0, false, Feat.image, none, none, i, d, none⟩)

/-- KBNetEncoder.forward as a symbolic trace: level0Step followed by
levelStep at levels 1..4.  Each level halves the spatial size per the
configured stride contract of the external blocks.  Returns the bottleneck
(layers[-1]) and the skips (layers[0:-1]). -/
def kbnetForward (res : List ℕ) (H W : ℕ) : Except String EncoderOutput :=
  match level0Step res with
  | (c1i, c1d, f1, skip1, rec0) =>
    let dims1 := (ceilHalf H, ceilHalf W)
    match levelStep res (0 ∈ res) 1 c1i c1d f1 with
    | Except.error e => Except.error e
    | Except.ok (c2i, c2d, f2, skip2, rec1) =>
      let dims2 := (ceilHalf dims1.1, ceilHalf dims1.2)
      match levelStep res (0 ∈ res) 2 c2i c2d f2 with
      | Except.error e => Except.error e
      | Except.ok (c3i, c3d, f3, skip3, rec2) =>
        let dims3 := (ceilHalf dims2.1, ceilHalf dims2.2)
        match levelStep res (0 ∈ res) 3 c3i c3d f3 with
        | Except.error e => Except.error e
        | Except.ok (c4i, c4d, f4, skip4, rec3) =>
          let dims4 := (ceilHalf dims3.1, ceilHalf dims3.2)
          match levelStep res (0 ∈ res) 4 c4i c4d f4 with
          | Except.error e => Except.error e
          | Except.ok (_c5i, _c5d, _f5, skip5, rec4) =>
            let dims5 := (ceilHalf dims4.1, ceilHalf dims4.2)
            Except.ok
              ⟨(skip5, dims5),
               [(skip1, dims1), (skip2, dims2), (skip3, dims3), (skip4, dims4)],
               [rec0, rec1, rec2, rec3, rec4]⟩

/-- The record of a given level of the encoder trace, on an 8x8 input. -/
def encRecord (res : List ℕ) (n : ℕ) : Option LevelRecord :=
  match kbnetForward res 8 8 with
  | Except.ok out => out.records.get? n
  | Except.error _ => none

/-! ## KBNetEncoder.__init__: configuration validation -/

/-- The constructor arguments of KBNetEncoder that its validation concerns. -/
structure KBNetEncoderConfig where
  n_filters_image : List ℕ
  n_filters_depth : List ℕ
  n_filters_fused : List ℕ
  n_convolutions_image : List ℕ
  n_convolutions_depth : List ℕ
  n_convolutions_fused : List ℕ
  resolutions_backprojection : List ℕ

/-- The per-level reads a configuration list undergoes during block
construction: indices 0 through 4 (both the [n] and [n-1] accesses fall in
this range). -/
def readLevels (l : List ℕ) : Except String Unit :=
  match l.get? 0, l.get? 1, l.get? 2, l.get? 3, l.get? 4 with
  | some _, some _, some _, some _, some _ => Except.ok ()
  | _, _, _, _, _ => Except.error ("IndexError: list index out of range")

/-- KBNetEncoder.__init__: the six assert statements in source order
(convolution-count lists first, then filter lists), each requiring exactly
network_depth = 5 entries, followed by the construction of the per-level
blocks, which reads entries 0..4 of each list.  Returns the indices of the
calibrated backprojection blocks that were created. -/
def kbnetEncoderInit (cfg : KBNetEncoderConfig) : Except String (List ℕ) :=
  if cfg.n_convolutions_image.length ≠ 5 then Except.error ("AssertionError")
  else if cfg.n_convolutions_depth.length ≠ 5 then Except.error ("AssertionError")
  else if cfg.n_convolutions_fused.length ≠ 5 then Except.error ("AssertionError")
  else if cfg.n_filters_image.length ≠ 5 then Except.error ("AssertionError")
  else if cfg.n_filters_depth.length ≠ 5 then Except.error ("AssertionError")
  else if cfg.n_filters_fused.length ≠ 5 then Except.error ("AssertionError")
  else
    match readLevels cfg.n_convolutions_image, readLevels cfg.n_convolutions_depth,
        readLevels cfg.n_convolutions_fused, readLevels cfg.n_filters_image,
        readLevels cfg.n_filters_depth, readLevels cfg.n_filters_fused with
    | Except.ok _, Except.ok _, Except.ok _, Except.ok _, Except.ok _, Except.ok _ =>
      Except.ok (constructedKBBlockIndices cfg.resolutions_backprojection)
    | _, _, _, _, _, _ => Except.error ("IndexError: list index out of range")

/-- Whether a construction attempt succeeded (did not raise). -/
def initSucceeds (e : Except String (List ℕ)) : Bool :=
  match e with
  | Except.ok _ => true
  | Except.error _ => false

/-! ## SparseToDensePool.forward: min/max pooling over a depth map -/

/-- The in-bounds input pixels covered by the s x s kernel window of a
MaxPool2d with stride 1 and padding s / 2, at output pixel (i, j) of an
H x W input. -/
def windowIdx (s H W : ℕ) (i j : ℕ) : List (ℕ × ℕ) :=
  (List.range s).flatMap fun di =>
    (List.range s).filterMap fun dj =>
      let r : ℤ := (i : ℤ) + di - (s / 2 : ℕ)
      let c : ℤ := (j : ℤ) + dj - (s / 2 : ℕ)
      if 0 ≤ r ∧ r < (H : ℤ) ∧ 0 ≤ c ∧ c < (W : ℤ) then some (r.toNat, c.toNat)
      else none

/-- Maximum of a list of rationals (0 on the empty list; pooling windows of
valid output pixels are never empty). -/
def listMaxD (l : List ℚ) : ℚ :=
  match l with
  | [] => 0
  | a :: t => t.foldl max a

/-- Minimum of a list of rationals (0 on the empty list). -/
def listMinD (l : List ℚ) : ℚ :=
  match l with
  | [] => 0
  | a :: t => t.foldl min a

/-- Modelled from the spec: torch.nn.MaxPool2d (stride 1, padding s / 2) is
not under src; per spec section 4.6 it takes the maximum over each kernel
window, out-of-bounds padding positions not contributing. -/
def maxPool (s H W : ℕ) (z : ℕ → ℕ → ℚ) (i j : ℕ) : ℚ :=
  listMaxD ((windowIdx s H W i j).map fun p => z p.1 p.2)

/-- One min-pool stage of SparseToDensePool.forward: zeros of the depth map
are replaced by the sentinel -999, the rest negated; the result is
max-pooled and negated back, and outputs equal to 999 are restored to 0. -/
def minPoolStage (s H W : ℕ) (z : ℕ → ℕ → ℚ) (i j : ℕ) : ℚ :=
  let masked : ℕ → ℕ → ℚ := fun a b => if z a b = 0 then -999 else -(z a b)
  let pooled := maxPool s H W masked i j
  let z_pool := -pooled
  if z_pool = 999 then 0 else z_pool

/-- The min-pool behaviour as the specification states it: the minimum over
the kernel window of the nonzero depth values, and zero when the window
holds only zeros. -/
def minNonzeroWindow (s H W : ℕ) (z : ℕ → ℕ → ℚ) (i j : ℕ) : ℚ :=
  listMinD (((windowIdx s H W i j).map fun p => z p.1 p.2).filter fun v => v ≠ 0)

/-- A depth map holding the sentinel value 999 at every pixel. -/
def sentinelDepth : ℕ → ℕ → ℚ := fun _ _ => 999

/-- A 2x2 depth map with a single nonzero measurement of 5. -/
def exampleDepth : ℕ → ℕ → ℚ := fun a b => if a = 0 ∧ b = 0 then 5 else 0

/-! ## PoseDecoder.forward -/

/-- A feature map: channel, row, column to value. -/
abbrev FMap := ℕ → ℕ → ℕ → ℚ

/-- The all-zero feature map. -/
def zeroFMap : FMap := fun _ _ _ => 0

/-- Modelled from the spec: the leaky_relu activation named by spec
section 6 (negative inputs scaled by a small slope); it fixes zero. -/
def leakyRelu (x : ℚ) : ℚ := if x < 0 then x / 100 else x

/-- Modelled from the spec: one net_utils.Conv2d layer (not under src); per
spec sections 1 and 6 it is a 2D convolution of the configured kernel,
stride and channel shape with a weight tensor, followed by the activation
(leaky_relu on the hidden layers of PoseDecoder, none on its final
6-channel 1x1 convolution). -/
structure ConvLayer where
  inChannels : ℕ
  kernel : ℕ
  stride : ℕ
  weight : ℕ → ℕ → ℕ × ℕ → ℚ
  leaky : Bool

/-- Applying one convolution layer to a feature map. -/
def applyConv (L : ConvLayer) (x : FMap) : FMap := fun c i j =>
  let v := ∑ cIn ∈ Finset.range L.inChannels, ∑ di ∈ Finset.range L.kernel,
    ∑ dj ∈ Finset.range L.kernel,
      L.weight c cIn (di, dj) * x cIn (L.stride * i + di) (L.stride * j + dj)
  if L.leaky then leakyRelu v else v

/-- The convolutional stack self.conv of a PoseDecoder: any finite sequence
of convolution layers (the source builds either a single 1x1 convolution or
several stride-2 layers followed by one). -/
def convStack (layers : List ConvLayer) (x : FMap) : FMap :=
  layers.foldl (fun acc L => applyConv L acc) x

/-- torch.mean over the spatial dimensions [2, 3] of an H x W feature map. -/
def meanSpatial (H W : ℕ) (f : FMap) (c : ℕ) : ℚ :=
  (∑ i ∈ Finset.range H, ∑ j ∈ Finset.range W, f c i j) / (H * W)

/-- PoseDecoder.forward up to the 6-DOF vector: the convolution stack, the
spatial mean, and the 0.01 scaling. -/
def poseDof (layers : List ConvLayer) (H W : ℕ) (x : FMap) : ℕ → ℚ :=
  fun c => (1 / 100) * meanSpatial H W (convStack layers x) c

/-- A 3x3 real rotation matrix with explicit entries. -/
structure RM3 where
  r00 : ℝ
  r01 : ℝ
  r02 : ℝ
  r10 : ℝ
  r11 : ℝ
  r12 : ℝ
  r20 : ℝ
  r21 : ℝ
  r22 : ℝ

/-- The identity rotation. -/
def idRM3 : RM3 := ⟨1, 0, 0, 0, 1, 0, 0, 0, 1⟩

/-- Modelled from the spec: the axis-angle rotation conversion inside
net_utils.pose_matrix (not under src), via the Rodrigues formula
R = I + (sin t / t) K + ((1 - cos t) / t^2) K^2 for the cross-product
matrix K of the rotation vector; the zero rotation vector yields the
identity rotation. -/
noncomputable def rodrigues (rx ry rz : ℝ) : RM3 :=
  let θ := Real.sqrt (rx ^ 2 + ry ^ 2 + rz ^ 2)
  if θ = 0 then idRM3
  else
    let s := Real.sin θ / θ
    let c := (1 - Real.cos θ) / θ ^ 2
    ⟨1 + c * (-(ry ^ 2 + rz ^ 2)), s * (-rz) + c * (rx * ry), s * ry + c * (rx * rz),
     s * rz + c * (rx * ry), 1 + c * (-(rx ^ 2 + rz ^ 2)), s * (-rx) + c * (ry * rz),
     s * (-ry) + c * (rx * rz), s * rx + c * (ry * rz), 1 + c * (-(rx ^ 2 + ry ^ 2))⟩

/-- A 4x4 real rigid-transform matrix with explicit entries. -/
structure RM4 where
  a00 : ℝ
  a01 : ℝ
  a02 : ℝ
  a03 : ℝ
  a10 : ℝ
  a11 : ℝ
  a12 : ℝ
  a13 : ℝ
  a20 : ℝ
  a21 : ℝ
  a22 : ℝ
  a23 : ℝ
  a30 : ℝ
  a31 : ℝ
  a32 : ℝ
  a33 : ℝ

/-- The identity rigid transform: identity rotation, zero translation. -/
def idRM4 : RM4 := ⟨1, 0, 0, 0, 0, 1, 0, 0, 0, 0, 1, 0, 0, 0, 0, 1⟩

/-- Modelled from the spec: net_utils.pose_matrix (not under src) converts a
6-DOF vector (3 rotation parameters, 3 translation parameters) into a 4x4
rigid transform: rotation block from the axis-angle parameterization,
translation in the last column, homogeneous bottom row. -/
noncomputable def pose_matrix (dof : ℕ → ℚ) : RM4 :=
  let R := rodrigues ((dof 0 : ℚ) : ℝ) ((dof 1 : ℚ) : ℝ) ((dof 2 : ℚ) : ℝ)
  ⟨R.r00, R.r01, R.r02, ((dof 3 : ℚ) : ℝ),
   R.r10, R.r11, R.r12, ((dof 4 : ℚ) : ℝ),
   R.r20, R.r21, R.r22, ((dof 5 : ℚ) : ℝ),
   0, 0, 0, 1⟩

/-- PoseDecoder.forward: the 6-DOF vector from the convolution stack, the
spatial mean and the 0.01 scaling, converted to a rigid transform. -/
noncomputable def poseDecoderForward (layers : List ConvLayer) (H W : ℕ)
    (x : FMap) : RM4 :=
  pose_matrix (poseDof layers H W x)

/-! ## MultiScaleDecoder.forward: shape-level trace semantics

The decoder is embedded at the level of spatial shapes.  Skip entries may
be Python None; list indexing follows Python semantics including negative
indices; reading an unbound upsample_output variable is a NameError. -/

/-- A spatial shape (height, width). -/
abbrev Shape := ℕ × ℕ

/-- Python list indexing: negative indices count from the end, out-of-range
access is an IndexError (here none). -/
def pyGet (l : List (Option Shape)) (n : ℤ) : Option (Option Shape) :=
  if n < 0 then
    if (l.length : ℤ) + n < 0 then none else l.get? ((l.length : ℤ) + n).toNat
  else l.get? n.toNat

/-- Modelled from the spec: net_utils.DecoderBlock (not under src); per spec
section 6 it is one upsample-and-fuse step: with a skip it produces the
skip's spatial shape, with a None skip it upsamples by 2. -/
def decoderBlock (cur : Shape) (skip : Option Shape) : Shape :=
  match skip with
  | some s => s
  | none => (2 * cur.1, 2 * cur.2)

/-- torch.cat of a skip tensor with an upsampled coarse prediction: the
spatial shapes must agree, channel concatenation keeps the spatial shape. -/
def catSkip (s u : Shape) : Except String Shape :=
  if s = u then Except.ok s else Except.error ("RuntimeError: cat size mismatch")

/-- torch.nn.functional.interpolate to size skips[n-1].shape[-2:]: reading
the shape of a None entry or indexing out of range raises. -/
def interpTo (skips : List (Option Shape)) (n : ℤ) : Except String Shape :=
  match pyGet skips (n - 1) with
  | none => Except.error ("IndexError: list index out of range")
  | some none => Except.error ("AttributeError: shape of None")
  | some (some s) => Except.ok s

/-- The mutable state of MultiScaleDecoder.forward: the current feature map
shape (layers[-1]), the skip index n, the outputs collected so far, and the
upsample_output3/2/1 variables (none while still unbound). -/
structure DecState where
  cur : Shape
  n : ℤ
  outs : List Shape
  up3 : Option Shape
  up2 : Option Shape
  up1 : Option Shape

/-- One of the deconv6 / deconv5 / deconv4 blocks of
MultiScaleDecoder.forward: when the block exists, decode with skips[n] and
step n down; these levels have no prediction head. -/
def stagePlain (present : Prop) [Decidable present]
    (skips : List (Option Shape)) (st : DecState) : Except String DecState :=
  if present then
    match pyGet skips st.n with
    | none => Except.error ("IndexError: list index out of range")
    | some sk => Except.ok { st with cur := decoderBlock st.cur sk, n := st.n - 1 }
  else Except.ok st

/-- The deconv3 block (network_depth > 3): decode with skips[n]; when
n_resolution > 3 emit output3 (a stride-1 head, keeping the shape) and
bilinearly upsample it to skips[n-1] when n > 0, else by a factor of 2. -/
def stage3 (depth r : ℕ) (skips : List (Option Shape)) (st : DecState) :
    Except String DecState :=
  if 3 < depth then
    match pyGet skips st.n with
    | none => Except.error ("IndexError: list index out of range")
    | some sk =>
      let cur := decoderBlock st.cur sk
      if 3 < r then
        match (if 0 < st.n then interpTo skips st.n
               else Except.ok (2 * cur.1, 2 * cur.2)) with
        | Except.error e => Except.error e
        | Except.ok u =>
          Except.ok { st with cur := cur, outs := st.outs ++ [cur],
                              up3 := some u, n := st.n - 1 }
      else Except.ok { st with cur := cur, n := st.n - 1 }
  else Except.ok st

/-- The deconv2 block (network_depth > 2): when skips[n] is not None and
n_resolution > 3 it is concatenated with upsample_output3; decode; when
n_resolution > 2 emit output2 and compute upsample_output2. -/
def stage2 (depth r : ℕ) (skips : List (Option Shape)) (st : DecState) :
    Except String DecState :=
  if 2 < depth then
    match pyGet skips st.n with
    | none => Except.error ("IndexError: list index out of range")
    | some skE =>
      let skipR : Except String (Option Shape) :=
        match skE with
        | some s =>
          if 3 < r then
            match st.up3 with
            | none => Except.error ("NameError: name upsample_output3 is not defined")
            | some u => (catSkip s u).map some
          else Except.ok (some s)
        | none => Except.ok none
      match skipR with
      | Except.error e => Except.error e
      | Except.ok skip =>
        let cur := decoderBlock st.cur skip
        if 2 < r then
          match (if 0 < st.n then interpTo skips st.n
                 else Except.ok (2 * cur.1, 2 * cur.2)) with
          | Except.error e => Except.error e
          | Except.ok u =>
            Except.ok { st with cur := cur, outs := st.outs ++ [cur],
                                up2 := some u, n := st.n - 1 }
        else Except.ok { st with cur := cur, n := st.n - 1 }
  else Except.ok st

/-- The deconv1 block (always present): when skips[n] is not None and
n_resolution > 2 it is concatenated with upsample_output2; decode; when
n_resolution > 1 emit output1 and compute upsample_output1; n steps down
afterwards in every case. -/
def stage1 (r : ℕ) (skips : List (Option Shape)) (st : DecState) :
    Except String DecState :=
  match pyGet skips st.n with
  | none => Except.error ("IndexError: list index out of range")
  | some skE =>
    let skipR : Except String (Option Shape) :=
      match skE with
      | some s =>
        if 2 < r then
          match st.up2 with
          | none => Except.error ("NameError: name upsample_output2 is not defined")
          | some u => (catSkip s u).map some
        else Except.ok (some s)
      | none => Except.ok none
    match skipR with
    | Except.error e => Except.error e
    | Except.ok skip =>
      let cur := decoderBlock st.cur skip
      if 1 < r then
        match (if 0 < st.n then interpTo skips st.n
               else Except.ok (2 * cur.1, 2 * cur.2)) with
        | Except.error e => Except.error e
        | Except.ok u =>
          Except.ok { st with cur := cur, outs := st.outs ++ [cur],
                              up1 := some u, n := st.n - 1 }
      else Except.ok { st with cur := cur, n := st.n - 1 }

/-- The final level of MultiScaleDecoder.forward.  In "upsample" output
mode the upsampled coarse prediction is the final output.  Otherwise, with
n_resolution > 1, deconv0 fuses with cat(skips[n], upsample_output1) when
n == 0 and skips[n] is not None, else with upsample_output1 alone; with
n_resolution == 1, deconv0 fuses with skips[n] when n == 0 and it is not
None, else upsamples to the explicit shape argument.  output0 keeps the
decoded shape. -/
def stage0 (r : ℕ) (upsampleMode : Bool) (skips : List (Option Shape))
    (shape : Option Shape) (st : DecState) : Except String (List Shape) :=
  if upsampleMode then
    match st.up1 with
    | none => Except.error ("NameError: name upsample_output1 is not defined")
    | some u => Except.ok (st.outs ++ [u])
  else if 1 < r then
    match pyGet skips st.n with
    | none => Except.error ("IndexError: list index out of range")
    | some skE =>
      let skipR : Except String Shape :=
        match skE, st.up1 with
        | some s, some u => if st.n = 0 then catSkip s u else Except.ok u
        | some _, none =>
          Except.error ("NameError: name upsample_output1 is not defined")
        | none, some u => Except.ok u
        | none, none =>
          Except.error ("NameError: name upsample_output1 is not defined")
      match skipR with
      | Except.error e => Except.error e
      | Except.ok sk => Except.ok (st.outs ++ [decoderBlock st.cur (some sk)])
  else
    match pyGet skips st.n with
    | none => Except.error ("IndexError: list index out of range")
    | some skE =>
      if skE.isSome ∧ st.n = 0 then
        Except.ok (st.outs ++ [decoderBlock st.cur skE])
      else
        match shape with
        | none => Except.error ("TypeError: shape is None")
        | some sh => Except.ok (st.outs ++ [sh])

/-- MultiScaleDecoder.forward as a shape-level trace, for a decoder built
with network_depth = depth and n_resolution = r (construction asserts
depth < 8 and 0 < r < depth; output_func "upsample" additionally forces
r to at least 2). -/
def msdForward (depth r : ℕ) (upsampleMode : Bool)
    (skips : List (Option Shape)) (x : Shape) (shape : Option Shape) :
    Except String (List Shape) :=
  let st0 : DecState := ⟨x, (skips.length : ℤ) - 1, [], none, none, none⟩
  match stagePlain (6 < depth) skips st0 with
  | Except.error e => Except.error e
  | Except.ok st1 =>
    match stagePlain (5 < depth) skips st1 with
    | Except.error e => Except.error e
    | Except.ok st2 =>
      match stagePlain (4 < depth) skips st2 with
      | Except.error e => Except.error e
      | Except.ok st3 =>
        match stage3 depth r skips st3 with
        | Except.error e => Except.error e
        | Except.ok st4 =>
          match stage2 depth r skips st4 with
          | Except.error e => Except.error e
          | Except.ok st5 =>
            match stage1 r skips st5 with
            | Except.error e => Except.error e
            | Except.ok st6 => stage0 r upsampleMode skips shape st6

/-- The canonical skip pyramid an encoder hands to a decoder of
network_depth d on a (128a) x (128b) input: d - 1 entries, finest first,
the entry for level i at 1 / 2^(i+1) of the input resolution. -/
def canonSkips (d a b : ℕ) : List (Option Shape) :=
  (List.range (d - 1)).map fun i => some (2 ^ (6 - i) * a, 2 ^ (6 - i) * b)

/-- The predictions the amended decoder claim expects: r shapes ordered
coarsest to finest, the finest being the full (128a) x (128b) input
resolution. -/
def expectedOuts (r a b : ℕ) : List Shape :=
  (List.range r).map fun i => (2 ^ (8 - r + i) * a, 2 ^ (8 - r + i) * b)

/-! ## Theorems -/

/-- C1: scale_intrinsics ignores its height0..width1 arguments.  With the
enclosing forward scope holding an 8x8 input and a 4x4 level-1 feature map,
a call asking for a scale to 2x2 still scales by the closure's 4/8 = 1/2,
differing from the spec template built from the arguments; and a call with
height1 = height0 and width1 = width0 does not return K unchanged. -/
theorem C1_scale_intrinsics_uses_closure_dims :
    scale_intrinsics ⟨1, 8, 8, 4, 4⟩ 8 8 2 2 idM3 ≠ scale_intrinsics_spec 8 8 2 2 idM3 ∧
    scale_intrinsics ⟨1, 8, 8, 4, 4⟩ 8 8 8 8 idM3 ≠ idM3 := by
  constructor <;>
    · simp only [scale_intrinsics, scale_intrinsics_spec, applyScaleTemplate, idM3,
        ne_eq, M3.mk.injEq, not_and]
      norm_num

/-- C4: for intrinsics with nonzero determinant, left-multiplying a
camera_coordinates entry by K recovers the homogeneous pixel coordinate. -/
theorem C4_camera_coordinates_roundtrip (k : M3) (h : det3 k ≠ 0)
    (height width i j : ℕ) :
    mulVec3 k (camera_coordinates height width k i j) = meshgrid height width i j := by
  obtain ⟨a, b, c, d, e, f, g, p, q⟩ := k
  simp only [det3] at h
  simp only [camera_coordinates, meshgrid, mulVec3, inv3, det3, V3.mk.injEq]
  refine ⟨?_, ?_, ?_⟩ <;> (field_simp; ring)

/-- Witness for C4 at a concrete invertible intrinsics matrix and pixel. -/
theorem C4_witness :
    det3 ⟨2, 0, 3, 0, 5, 7, 0, 0, 1⟩ ≠ 0 ∧
    mulVec3 ⟨2, 0, 3, 0, 5, 7, 0, 0, 1⟩
        (camera_coordinates 4 6 ⟨2, 0, 3, 0, 5, 7, 0, 0, 1⟩ 1 2) =
      meshgrid 4 6 1 2 :=
  ⟨by norm_num [det3], C4_camera_coordinates_roundtrip _ (by norm_num [det3]) 4 6 1 2⟩

/-- C2: with every level calibrated, the level-4 step of the forward pass
invokes calibrated backprojection block 4 — the same block the level-3 step
invoked — while the constructor created the blocks 1..5, so the dedicated
level-4 block (calibrated_backprojection5) is the one the code never
invokes. -/
theorem C2_level4_reuses_level3_block :
    (encRecord [0, 1, 2, 3, 4] 4).map LevelRecord.calibrated = some true ∧
    ((encRecord [0, 1, 2, 3, 4] 4).bind LevelRecord.blockIndex = some 4 ∧
      (encRecord [0, 1, 2, 3, 4] 3).bind LevelRecord.blockIndex = some 4) ∧
    constructedKBBlockIndices [0, 1, 2, 3, 4] = [1, 2, 3, 4, 5] := by
  refine ⟨?_, ⟨?_, ?_⟩, ?_⟩ <;> decide

/-- Counterexample to C3: with levels 0 and 1 both calibrated, level 0
produces a fused output, yet the tensor fed as the image-path input of
level 1 is level 0's image-stream output, not its fused output. -/
theorem C3_counterexample :
    (encRecord [0, 1] 0).map LevelRecord.calibrated = some true ∧
    ((encRecord [0, 1] 0).bind LevelRecord.fusedOut).isSome = true ∧
    (encRecord [0, 1] 1).map LevelRecord.calibrated = some true ∧
    (encRecord [0, 1] 1).map LevelRecord.imageInput ≠
      (encRecord [0, 1] 0).bind LevelRecord.fusedOut := by
  refine ⟨?_, ?_, ?_, ?_⟩ <;> decide

/-- C6: with resolutions_backprojection = [0, 1, 2] on a 256 x 256 input,
the encoder returns exactly 4 skip entries, finest first at halving
resolutions, and a bottleneck at 8 x 8 = 1/32 of the input. -/
theorem C6_encoder_shapes :
    (kbnetForward [0, 1, 2] 256 256).toOption.map (fun o => o.skips.length) = some 4 ∧
    (kbnetForward [0, 1, 2] 256 256).toOption.map (fun o => o.skips.map Prod.snd) =
      some [(128, 128), (64, 64), (32, 32), (16, 16)] ∧
    (kbnetForward [0, 1, 2] 256 256).toOption.map (fun o => o.bottleneck.2) =
      some (8, 8) := by
  refine ⟨?_, ?_, ?_⟩ <;> decide

/-- C5: when level 0 is not calibrated but some level in 1..4 is, the
forward pass raises a NameError for every input, because n_batch,
n_height0 and n_width0 are bound only in the level-0 calibrated branch and
the first calibrated level's scale_intrinsics call reads them. -/
theorem C5_later_calibration_needs_level0 (res : List ℕ) (H W : ℕ)
    (h0 : 0 ∉ res) (hn : 1 ∈ res ∨ 2 ∈ res ∨ 3 ∈ res ∨ 4 ∈ res) :
    kbnetForward res H W = Except.error ("NameError: name n_batch is not defined") := by
  by_cases h1 : 1 ∈ res <;> by_cases h2 : 2 ∈ res <;> by_cases h3 : 3 ∈ res <;>
    by_cases h4 : 4 ∈ res <;>
      simp_all [kbnetForward, levelStep]

/-- Witness for C5 with resolutions_backprojection = [2]. -/
theorem C5_witness :
    (0 ∉ ([2] : List ℕ)) ∧ (2 ∈ ([2] : List ℕ)) ∧
    kbnetForward [2] 8 8 = Except.error ("NameError: name n_batch is not defined") :=
  ⟨by decide, by decide,
    C5_later_calibration_needs_level0 [2] 8 8 (by decide) (Or.inr (Or.inl (by decide)))⟩

/-- A configuration list of length 5 (or more) survives the per-level index
accesses of the block construction. -/
theorem readLevels_ok_of_length (l : List ℕ) (h : l.length = 5) :
    readLevels l = Except.ok () := by
  rcases l with _ | ⟨a, _ | ⟨b, _ | ⟨c, _ | ⟨d, _ | ⟨e, rest⟩⟩⟩⟩⟩ <;>
    simp_all [readLevels]

/-- C10: KBNetEncoder construction succeeds exactly when all six per-level
configuration lists have exactly 5 entries. -/
theorem C10_init_validation (cfg : KBNetEncoderConfig) :
    initSucceeds (kbnetEncoderInit cfg) = true ↔
      (cfg.n_filters_image.length = 5 ∧ cfg.n_filters_depth.length = 5 ∧
        cfg.n_filters_fused.length = 5 ∧ cfg.n_convolutions_image.length = 5 ∧
        cfg.n_convolutions_depth.length = 5 ∧ cfg.n_convolutions_fused.length = 5) := by
  constructor
  · intro h
    by_cases a1 : cfg.n_convolutions_image.length = 5 <;>
      by_cases a2 : cfg.n_convolutions_depth.length = 5 <;>
        by_cases a3 : cfg.n_convolutions_fused.length = 5 <;>
          by_cases a4 : cfg.n_filters_image.length = 5 <;>
            by_cases a5 : cfg.n_filters_depth.length = 5 <;>
              by_cases a6 : cfg.n_filters_fused.length = 5 <;>
                simp_all [kbnetEncoderInit, initSucceeds]
  · rintro ⟨h1, h2, h3, h4, h5, h6⟩
    simp [kbnetEncoderInit, initSucceeds, h1, h2, h3, h4, h5, h6,
      readLevels_ok_of_length _ h1, readLevels_ok_of_length _ h2,
      readLevels_ok_of_length _ h3, readLevels_ok_of_length _ h4,
      readLevels_ok_of_length _ h5, readLevels_ok_of_length _ h6]

/-- Witness for C10: the default configuration, all six lists of length 5,
constructs successfully. -/
theorem C10_witness :
    initSucceeds (kbnetEncoderInit
      ⟨[48, 96, 192, 384, 384], [16, 32, 64, 128, 128], [48, 96, 192, 384, 384],
        [1, 1, 1, 1, 1], [1, 1, 1, 1, 1], [1, 1, 1, 1, 1], [0, 1, 2]⟩) = true :=
  (C10_init_validation _).mpr (by decide)

/-- A convolution layer maps the all-zero feature map to the all-zero
feature map: the weighted sum vanishes and both activations fix zero. -/
theorem applyConv_zero (L : ConvLayer) : applyConv L zeroFMap = zeroFMap := by
  funext c i j
  simp [applyConv, zeroFMap, leakyRelu]

/-- A stack of convolution layers maps the all-zero feature map to the
all-zero feature map. -/
theorem convStack_zero (layers : List ConvLayer) :
    convStack layers zeroFMap = zeroFMap := by
  induction layers with
  | nil => rfl
  | cons L t ih =>
    show convStack t (applyConv L zeroFMap) = zeroFMap
    rw [applyConv_zero]
    exact ih

/-- C8: on an all-zero input feature map, the pose decoder's 6-DOF vector
(spatial mean of the convolution output, scaled by 0.01) is exactly zero,
and the resulting rigid transform is the identity. -/
theorem C8_pose_identity_on_zero (layers : List ConvLayer) (H W : ℕ) :
    poseDof layers H W zeroFMap = (fun _ => 0) ∧
    poseDecoderForward layers H W zeroFMap = idRM4 := by
  have hdof : poseDof layers H W zeroFMap = fun _ => 0 := by
    funext c
    simp [poseDof, meanSpatial, convStack_zero, zeroFMap]
  refine ⟨hdof, ?_⟩
  rw [poseDecoderForward, hdof]
  have hrot : rodrigues 0 0 0 = idRM3 := by
    rw [rodrigues]
    norm_num
  simp [pose_matrix, Rat.cast_zero, hrot, idRM3, idRM4]

/-- Any value equal to the seed or in the list bounds the max fold. -/
theorem le_foldl_max (t : List ℚ) : ∀ a v : ℚ, v = a ∨ v ∈ t → v ≤ t.foldl max a := by
  induction t with
  | nil =>
    intro a v h
    simp only [List.not_mem_nil, or_false] at h
    simp [h]
  | cons b t ih =>
    intro a v h
    simp only [List.foldl_cons]
    rcases h with h | h
    · exact le_trans (h ▸ le_max_left a b) (ih (max a b) (max a b) (Or.inl rfl))
    · rcases List.mem_cons.mp h with h | h
      · exact le_trans (h ▸ le_max_right a b) (ih (max a b) (max a b) (Or.inl rfl))
      · exact ih (max a b) v (Or.inr h)

/-- The max fold returns the seed or a list member. -/
theorem foldl_max_mem (t : List ℚ) : ∀ a : ℚ, t.foldl max a = a ∨ t.foldl max a ∈ t := by
  induction t with
  | nil =>
    intro a
    exact Or.inl rfl
  | cons b t ih =>
    intro a
    simp only [List.foldl_cons]
    rcases ih (max a b) with h | h
    · rcases max_choice a b with hm | hm
      · exact Or.inl (by rw [h, hm])
      · exact Or.inr (by rw [h, hm]; exact List.mem_cons_self b t)
    · exact Or.inr (List.mem_cons_of_mem b h)

/-- The max of a nonempty list is one of its members. -/
theorem listMaxD_mem (l : List ℚ) (h : l ≠ []) : listMaxD l ∈ l := by
  match l with
  | [] => exact absurd rfl h
  | a :: t =>
    simp only [listMaxD]
    rcases foldl_max_mem t a with h' | h'
    · rw [h']; exact List.mem_cons_self a t
    · exact List.mem_cons_of_mem a h'

/-- Every member of a list is at most its max. -/
theorem le_listMaxD (l : List ℚ) (v : ℚ) (hv : v ∈ l) : v ≤ listMaxD l := by
  match l with
  | [] => exact absurd hv (List.not_mem_nil v)
  | a :: t =>
    simp only [listMaxD]
    exact le_foldl_max t a v (by simpa using List.mem_cons.mp hv)

/-- The min fold bounds any value equal to the seed or in the list. -/
theorem foldl_min_le (t : List ℚ) : ∀ a v : ℚ, v = a ∨ v ∈ t → t.foldl min a ≤ v := by
  induction t with
  | nil =>
    intro a v h
    simp only [List.not_mem_nil, or_false] at h
    simp [h]
  | cons b t ih =>
    intro a v h
    simp only [List.foldl_cons]
    rcases h with h | h
    · exact le_trans (ih (min a b) (min a b) (Or.inl rfl)) (h ▸ min_le_left a b)
    · rcases List.mem_cons.mp h with h | h
      · exact le_trans (ih (min a b) (min a b) (Or.inl rfl)) (h ▸ min_le_right a b)
      · exact ih (min a b) v (Or.inr h)

/-- The min fold returns the seed or a list member. -/
theorem foldl_min_mem (t : List ℚ) : ∀ a : ℚ, t.foldl min a = a ∨ t.foldl min a ∈ t := by
  induction t with
  | nil =>
    intro a
    exact Or.inl rfl
  | cons b t ih =>
    intro a
    simp only [List.foldl_cons]
    rcases ih (min a b) with h | h
    · rcases min_choice a b with hm | hm
      · exact Or.inl (by rw [h, hm])
      · exact Or.inr (by rw [h, hm]; exact List.mem_cons_self b t)
    · exact Or.inr (List.mem_cons_of_mem b h)

/-- The min of a nonempty list is one of its members. -/
theorem listMinD_mem (l : List ℚ) (h : l ≠ []) : listMinD l ∈ l := by
  match l with
  | [] => exact absurd rfl h
  | a :: t =>
    simp only [listMinD]
    rcases foldl_min_mem t a with h' | h'
    · rw [h']; exact List.mem_cons_self a t
    · exact List.mem_cons_of_mem a h'

/-- The min of a list is at most every member. -/
theorem listMinD_le (l : List ℚ) (v : ℚ) (hv : v ∈ l) : listMinD l ≤ v := by
  match l with
  | [] => exact absurd hv (List.not_mem_nil v)
  | a :: t =>
    simp only [listMinD]
    exact foldl_min_le t a v (by simpa using List.mem_cons.mp hv)

/-- Pixels produced by windowIdx are in bounds. -/
theorem windowIdx_bounds (s H W i j : ℕ) (p : ℕ × ℕ)
    (hp : p ∈ windowIdx s H W i j) : p.1 < H ∧ p.2 < W := by
  simp only [windowIdx, List.mem_flatMap, List.mem_filterMap, List.mem_range] at hp
  obtain ⟨di, hdi, dj, hdj, h⟩ := hp
  split at h
  · rename_i hcond
    obtain ⟨rfl⟩ := Option.some.injEq _ _ ▸ h
    constructor <;> simp <;> omega
  · exact absurd h (by simp)

/-- The sentinel-masked max-pool of a list of values in [0, 999) recovers
the minimum of the nonzero values (0 when there are none), never equals
the sentinel, and the plain max never equals the sentinel either. -/
theorem minPool_core (w : List ℚ) (hwne : w ≠ [])
    (hwb : ∀ v ∈ w, 0 ≤ v ∧ v < 999) :
    (if -listMaxD (w.map fun v => if v = 0 then -999 else -v) = 999 then (0 : ℚ)
      else -listMaxD (w.map fun v => if v = 0 then -999 else -v)) =
        listMinD (w.filter fun v => v ≠ 0) ∧
    (if -listMaxD (w.map fun v => if v = 0 then -999 else -v) = 999 then (0 : ℚ)
      else -listMaxD (w.map fun v => if v = 0 then -999 else -v)) ≠ 999 ∧
    listMaxD w ≠ 999 := by
  have hmapne : w.map (fun v => if v = 0 then -999 else -v) ≠ [] := by
    simpa using hwne
  have hmax999 : listMaxD w ≠ 999 := by
    have hm := listMaxD_mem w hwne
    have := (hwb _ hm).2
    intro hc
    rw [hc] at this
    norm_num at this
  by_cases hA : w.filter (fun v => v ≠ 0) = []
  · have hall : ∀ v ∈ w, v = 0 := by
      intro v hv
      have := List.filter_eq_nil_iff.mp hA v hv
      simpa using this
    have hpooled : listMaxD (w.map fun v => if v = 0 then -999 else -v) = -999 := by
      have hm := listMaxD_mem _ hmapne
      obtain ⟨v, hv, hveq⟩ := List.mem_map.mp hm
      rw [← hveq, hall v hv]
      norm_num
    rw [hpooled, hA]
    exact ⟨by norm_num [listMinD], by norm_num, hmax999⟩
  · have hmf := listMinD_mem _ hA
    have hmw : listMinD (w.filter fun v => v ≠ 0) ∈ w ∧
        listMinD (w.filter fun v => v ≠ 0) ≠ 0 := by
      have := List.mem_filter.mp hmf
      simpa using this
    have hmb := hwb _ hmw.1
    have hm0 : 0 < listMinD (w.filter fun v => v ≠ 0) :=
      lt_of_le_of_ne hmb.1 (Ne.symm hmw.2)
    have hupper : ∀ u ∈ w.map (fun v => if v = 0 then -999 else -v),
        u ≤ -listMinD (w.filter fun v => v ≠ 0) := by
      intro u hu
      obtain ⟨v, hv, rfl⟩ := List.mem_map.mp hu
      by_cases hv0 : v = 0
      · rw [if_pos hv0]
        have := hmb.2
        linarith
      · rw [if_neg hv0]
        have : listMinD (w.filter fun v => v ≠ 0) ≤ v :=
          listMinD_le _ v (List.mem_filter.mpr ⟨hv, by simpa using hv0⟩)
        linarith
    have hlower : -listMinD (w.filter fun v => v ≠ 0) ∈
        w.map (fun v => if v = 0 then -999 else -v) :=
      List.mem_map.mpr ⟨listMinD (w.filter fun v => v ≠ 0), hmw.1, by rw [if_neg hmw.2]⟩
    have hpooled : listMaxD (w.map fun v => if v = 0 then -999 else -v) =
        -listMinD (w.filter fun v => v ≠ 0) :=
      le_antisymm (hupper _ (listMaxD_mem _ hmapne)) (le_listMaxD _ _ hlower)
    rw [hpooled, neg_neg]
    have hne999 : listMinD (w.filter fun v => v ≠ 0) ≠ 999 := by
      have := hmb.2
      intro hc
      rw [hc] at this
      norm_num at this
    rw [if_neg hne999]
    exact ⟨rfl, hne999, hmax999⟩

/-- Counterexample to C9: at a depth input that is everywhere the (positive)
value 999, the min-pool stage returns 0 where the minimum of the nonzero
window values is 999, and the plain max-pool output equals the internal
sentinel value 999. -/
theorem C9_counterexample :
    (0 : ℚ) ≤ sentinelDepth 0 0 ∧
    minPoolStage 3 1 1 sentinelDepth 0 0 = 0 ∧
    minNonzeroWindow 3 1 1 sentinelDepth 0 0 = 999 ∧
    minPoolStage 3 1 1 sentinelDepth 0 0 ≠ minNonzeroWindow 3 1 1 sentinelDepth 0 0 ∧
    maxPool 3 1 1 sentinelDepth 0 0 = 999 := by
  have hwi : windowIdx 3 1 1 0 0 = [(0, 0)] := by decide
  refine ⟨by norm_num [sentinelDepth], ?_, ?_, ?_, ?_⟩ <;>
    · simp only [minPoolStage, maxPool, minNonzeroWindow, hwi, sentinelDepth,
        List.map_cons, List.map_nil, List.filter, listMaxD, listMinD, List.foldl_nil]
      try norm_num

/-- C9 amended: for a depth map whose in-bounds entries lie in [0, 999)
(zero meaning no measurement, positive below the sentinel), every min-pool
stage output pixel with a nonempty window equals the minimum of the nonzero
window values (0 when the window holds only zeros), and neither the
min-pool nor the max-pool output ever equals the sentinel 999. -/
theorem C9_minpool_below_sentinel (s H W : ℕ) (z : ℕ → ℕ → ℚ) (i j : ℕ)
    (hz : ∀ a b, a < H → b < W → 0 ≤ z a b ∧ z a b < 999)
    (hw : windowIdx s H W i j ≠ []) :
    minPoolStage s H W z i j = minNonzeroWindow s H W z i j ∧
    minPoolStage s H W z i j ≠ 999 ∧
    maxPool s H W z i j ≠ 999 := by
  have hmm : (windowIdx s H W i j).map
      (fun p => if z p.1 p.2 = 0 then -999 else -(z p.1 p.2)) =
      ((windowIdx s H W i j).map fun p => z p.1 p.2).map
        (fun v => if v = 0 then -999 else -v) := by
    rw [List.map_map]
    rfl
  have hwne : (windowIdx s H W i j).map (fun p => z p.1 p.2) ≠ [] := by
    simpa using hw
  have hwb : ∀ v ∈ (windowIdx s H W i j).map (fun p => z p.1 p.2),
      0 ≤ v ∧ v < 999 := by
    intro v hv
    obtain ⟨p, hp, rfl⟩ := List.mem_map.mp hv
    have hb := windowIdx_bounds s H W i j p hp
    exact hz p.1 p.2 hb.1 hb.2
  have hcore := minPool_core _ hwne hwb
  simp only [minPoolStage, maxPool, minNonzeroWindow, hmm]
  exact hcore

/-- What one levelStep record says about its inputs and outputs: the record
stores the level's output streams, and its image-path input is the previous
fused stream exactly when the level is plain and a previous fused stream
exists; a calibrated level consumes the previous image stream on its image
path and the previous fused stream on its fused input. -/
theorem levelStep_spec (res : List ℕ) (ctx0 : Prop) [Decidable ctx0] (n : ℕ)
    (pI pD : Feat) (pF : Option Feat) (outI outD : Feat) (outF : Option Feat)
    (skip : Feat) (rec : LevelRecord)
    (h : levelStep res ctx0 n pI pD pF = Except.ok (outI, outD, outF, skip, rec)) :
    rec.imageOut = outI ∧ rec.fusedOut = outF ∧
    (rec.calibrated = false → rec.imageInput = fusedOrImage pF pI) ∧
    (rec.calibrated = true → rec.imageInput = pI ∧ rec.fusedInput = pF) := by
  unfold levelStep at h
  split at h
  · split at h
    · split at h
      · simp at h
      · simp only [Except.ok.injEq, Prod.mk.injEq] at h
        obtain ⟨h1, h2, h3, h4, h5⟩ := h
        subst h5
        simp [h1, h3]
    · simp at h
  · simp only [Except.ok.injEq, Prod.mk.injEq] at h
    obtain ⟨h1, h2, h3, h4, h5⟩ := h
    subst h5
    simp [h1, h3, fusedOrImage]

/-- The level-0 record stores level 0's output streams. -/
theorem level0Step_spec (res : List ℕ)
    (outI outD : Feat) (outF : Option Feat) (skip : Feat) (rec : LevelRecord)
    (h : level0Step res = (outI, outD, outF, skip, rec)) :
    rec.imageOut = outI ∧ rec.fusedOut = outF := by
  rw [level0Step] at h
  split at h <;>
    · simp only [Prod.mk.injEq] at h
      obtain ⟨h1, h2, h3, h4, h5⟩ := h
      subst h5
      simp [h1, h3]

/-- C3 amended: in every successful forward pass, for each level n in 1..4,
when level n is plain its image-path input is level (n-1)'s fused output if
level (n-1) was calibrated and level (n-1)'s image output otherwise; when
level n is calibrated its image-path input is always level (n-1)'s
image-stream output, with level (n-1)'s fused output passed separately as
the block's fused input. -/
theorem C3_image_input_transition (res : List ℕ) (H W : ℕ) (out : EncoderOutput)
    (hok : kbnetForward res H W = Except.ok out) (i : ℕ) (hi : i < 4)
    (rp rn : LevelRecord)
    (hrp : out.records.get? i = some rp) (hrn : out.records.get? (i + 1) = some rn) :
    (rn.calibrated = false →
      rn.imageInput = fusedOrImage rp.fusedOut rp.imageOut) ∧
    (rn.calibrated = true →
      rn.imageInput = rp.imageOut ∧ rn.fusedInput = rp.fusedOut) := by
  rw [kbnetForward] at hok
  rcases h0eq : level0Step res with ⟨c1i, c1d, f1, skip1, rec0⟩
  rw [h0eq] at hok
  simp only at hok
  split at hok
  · exact absurd hok (by simp)
  next c2i c2d f2 skip2 rec1 heq1 =>
    split at hok
    · exact absurd hok (by simp)
    next c3i c3d f3 skip3 rec2 heq2 =>
      split at hok
      · exact absurd hok (by simp)
      next c4i c4d f4 skip4 rec3 heq3 =>
        split at hok
        · exact absurd hok (by simp)
        next c5i c5d f5 skip5 rec4 heq4 =>
          rw [Except.ok.injEq] at hok
          subst hok
          interval_cases i <;>
            simp only [List.get?_cons_zero, List.get?_cons_succ,
              Option.some.injEq] at hrp hrn <;> subst hrp <;> subst hrn
          · have sA := level0Step_spec res _ _ _ _ _ h0eq
            have sB := levelStep_spec res _ 1 _ _ _ _ _ _ _ _ heq1
            rw [sA.1, sA.2]
            exact ⟨sB.2.2.1, sB.2.2.2⟩
          · have sA := levelStep_spec res _ 1 _ _ _ _ _ _ _ _ heq1
            have sB := levelStep_spec res _ 2 _ _ _ _ _ _ _ _ heq2
            rw [sA.1, sA.2.1]
            exact ⟨sB.2.2.1, sB.2.2.2⟩
          · have sA := levelStep_spec res _ 2 _ _ _ _ _ _ _ _ heq2
            have sB := levelStep_spec res _ 3 _ _ _ _ _ _ _ _ heq3
            rw [sA.1, sA.2.1]
            exact ⟨sB.2.2.1, sB.2.2.2⟩
          · have sA := levelStep_spec res _ 3 _ _ _ _ _ _ _ _ heq3
            have sB := levelStep_spec res _ 4 _ _ _ _ _ _ _ _ heq4
            rw [sA.1, sA.2.1]
            exact ⟨sB.2.2.1, sB.2.2.2⟩

/-- Witness for the amended C3: with levels 0 and 2 calibrated, level 1 is
plain and its image-path input is level 0's fused output. -/
theorem C3_witness :
    (encRecord [0, 2] 1).map LevelRecord.imageInput =
      (encRecord [0, 2] 0).bind LevelRecord.fusedOut := by
  have h := C3_image_input_transition [0, 2] 8 8 _ rfl 0 (by omega) _ _ rfl rfl
  have h2 := h.1 (by decide)
  decide

/-- Counterexample to C7: a decoder of network depth 6 accepts
n_resolution = 5 at construction (0 < 5 < 6), yet its forward pass emits
only 4 predictions, because prediction heads exist only at the final four
levels. -/
theorem C7_counterexample :
    ((0 : ℕ) < 5 ∧ (5 : ℕ) < 6) ∧
    (msdForward 6 5 false (canonSkips 6 1 1) (2, 2) (some (128, 128))).toOption =
      some [(16, 16), (32, 32), (64, 64), (128, 128)] ∧
    ([(16, 16), (32, 32), (64, 64), (128, 128)] : List Shape).length ≠ 5 := by
  refine ⟨by decide, ?_, by decide⟩
  decide

set_option maxHeartbeats 2000000 in
/-- C7 amended: for every network depth d in 2..7 and n_resolution r in
1..4 with r < d, on the canonical skip pyramid of a (128a) x (128b) input
the decoder returns exactly r predictions, ordered coarsest to finest,
the finest at the full input resolution (for r = 1, via the explicit shape
argument). -/
theorem C7_decoder_output_count (d r a b : ℕ) (hd2 : 2 ≤ d) (hd7 : d ≤ 7)
    (hr1 : 1 ≤ r) (hr4 : r ≤ 4) (hrd : r < d) (ha : 1 ≤ a) (hb : 1 ≤ b) :
    msdForward d r false (canonSkips d a b) (2 ^ (7 - d) * a, 2 ^ (7 - d) * b)
        (some (2 ^ 7 * a, 2 ^ 7 * b)) = Except.ok (expectedOuts r a b) ∧
    (expectedOuts r a b).length = r ∧
    List.Chain' (fun s t => s.1 < t.1 ∧ s.2 < t.2) (expectedOuts r a b) ∧
    (expectedOuts r a b).getLast? = some (2 ^ 7 * a, 2 ^ 7 * b) := by
  interval_cases d <;> interval_cases r <;>
    refine ⟨?_, ?_, ?_, ?_⟩ <;>
      · simp [msdForward, stagePlain, stage3, stage2, stage1, stage0, canonSkips,
          pyGet, decoderBlock, catSkip, interpTo, expectedOuts, List.range_succ,
          Except.map, List.chain'_cons]
        try omega

/-- Witness for the amended C7 at depth 5 with 3 output resolutions. -/
theorem C7_witness :
    ((2 : ℕ) ≤ 5 ∧ (5 : ℕ) ≤ 7 ∧ (1 : ℕ) ≤ 3 ∧ (3 : ℕ) ≤ 4 ∧ (3 : ℕ) < 5 ∧
      (1 : ℕ) ≤ 1) ∧
    msdForward 5 3 false (canonSkips 5 1 1) (2 ^ (7 - 5) * 1, 2 ^ (7 - 5) * 1)
        (some (2 ^ 7 * 1, 2 ^ 7 * 1)) = Except.ok (expectedOuts 3 1 1) :=
  ⟨by decide,
    (C7_decoder_output_count 5 3 1 1 (by decide) (by decide) (by decide) (by decide)
      (by decide) (by decide) (by decide)).1⟩

/-- Witness for the amended C9 on a 2x2 depth map with one measurement. -/
theorem C9_witness :
    (∀ a b, a < 2 → b < 2 → 0 ≤ exampleDepth a b ∧ exampleDepth a b < 999) ∧
    windowIdx 3 2 2 0 0 ≠ [] ∧
    (minPoolStage 3 2 2 exampleDepth 0 0 = minNonzeroWindow 3 2 2 exampleDepth 0 0 ∧
      minPoolStage 3 2 2 exampleDepth 0 0 ≠ 999 ∧
      maxPool 3 2 2 exampleDepth 0 0 ≠ 999) := by
  have hz : ∀ a b, a < 2 → b < 2 → 0 ≤ exampleDepth a b ∧ exampleDepth a b < 999 := by
    intro a b ha hb
    interval_cases a <;> interval_cases b <;> norm_num [exampleDepth]
  exact ⟨hz, by decide, C9_minpool_below_sentinel 3 2 2 exampleDepth 0 0 hz (by decide)⟩
